import Mathlib

/-!
Verification development for the message-processing core of
`target_csv.py` (AutoIDM/target-csv).

The embedding is shallow: the single-pass message loop of
`persist_messages` becomes a step function on an explicit loop state,
the filesystem becomes an association list from path to parsed CSV
contents (a file is a list of rows, a row a list of cell strings), and
the external collaborators (the Draft4 JSON-schema validator and the
SFTP network) become oracles passed in as parameters.  Machine-level
details that no claim depends on are abstracted: CSV quoting and
delimiter rendering (rows are kept parsed), string escaping inside the
JSON encoder, and tilde expansion of paths.
-/

/-- JSON values as decoded Python objects.  Python `None` is `Json.null`;
numbers are modelled as integers and string escaping is not modelled. -/
inductive Json where
  | null
  | bool (b : Bool)
  | num (n : Int)
  | str (s : String)
  | arr (elems : List Json)
  | obj (fields : List (String × Json))

/-- Whether a JSON value is `null` (Python `None`). -/
def Json.isNull : Json → Bool
  | Json.null => true
  | _ => false

mutual

/-- `json.dumps` with Python's default separators. -/
def jsonEncode : Json → String
  | Json.null => "null"
  | Json.bool true => "true"
  | Json.bool false => "false"
  | Json.num n => toString n
  | Json.str s => "\"" ++ s ++ "\""
  | Json.arr xs => "[" ++ jsonEncodeArr xs ++ "]"
  | Json.obj fs => "\x7b" ++ jsonEncodeObj fs ++ "\x7d"

/-- Comma-separated encoding of a JSON array body. -/
def jsonEncodeArr : List Json → String
  | [] => ""
  | [x] => jsonEncode x
  | x :: y :: t => jsonEncode x ++ ", " ++ jsonEncodeArr (y :: t)

/-- Comma-separated encoding of a JSON object body. -/
def jsonEncodeObj : List (String × Json) → String
  | [] => ""
  | [(k, v)] => "\"" ++ k ++ "\": " ++ jsonEncode v
  | (k, v) :: p :: t => "\"" ++ k ++ "\": " ++ jsonEncode v ++ ", " ++ jsonEncodeObj (p :: t)

end

/-- A record's fields: an ordered mapping from field name to the cell
text the CSV layer would render for the value (`str(v)` in Python). -/
abbrev Rec := List (String × String)

/-- A CSV row: one cell per column. -/
abbrev Row := List String

/-- The filesystem: paths mapped to parsed file contents.  An absent
path means `os.path.isfile` is false; `some []` is a zero-size file. -/
abbrev FS := List (String × List Row)

/-- A decoded Singer message (`singer.parse_message(...).asdict()`).
`unknown` covers message types other than SCHEMA/RECORD/STATE, which
are logged and skipped (line 111-113 of target_csv.py). -/
inductive Message where
  | schema (stream : String) (schema_def : Json) (key_properties : List String)
  | record (stream : String) (record_fields : Rec)
  | state (value : Json)
  | unknown

/-- Whether a message is a RECORD. -/
def Message.isRecord : Message → Bool
  | Message.record _ _ => true
  | _ => false

/-- Whether a message is a STATE. -/
def Message.isState : Message → Bool
  | Message.state _ => true
  | _ => false

/-- Python `dict` lookup (`d[k]` / `k in d`), first-match on an
association list. -/
def alookup {α : Type} : List (String × α) → String → Option α
  | [], _ => none
  | (k', v') :: t, k => if k' = k then some v' else alookup t k

/-- Python `dict` assignment `d[k] = v`: replaces the value in place or
appends a new binding at the end (insertion order preserved). -/
def aset {α : Type} : List (String × α) → String → α → List (String × α)
  | [], k, v => [(k, v)]
  | (k', v') :: t, k, v => if k' = k then (k, v) :: t else (k', v') :: aset t k v

/-- The error taxonomy of the run: the unknown-stream exception of
line 64, the `jsonschema` validation failure of line 67, and any
exception escaping the SFTP block of lines 117-133. -/
inductive Err where
  | unknownStream (stream : String)
  | validationFailed (stream : String)
  | transferError
deriving DecidableEq

/-- The configuration options `persist_messages` receives (main reads
them from the config file with `config.get`, so absent options arrive
as Python `None` = `none`). -/
structure Config where
  delimiter : String
  quotechar : String
  destination_path : String
  fixed_headers : Option (List (String × List String))
  sftp_host : Option String
  sftp_username : Option String
  sftp_password : Option String
  sftp_port : Option String
  sftp_public_key : Option String
  sftp_public_key_format : Option String

/-- The local variables of `persist_messages` that evolve through the
message loop (lines 46-51).  `schemas` stores the schema JSON; the
compiled `validators` entry of line 109 is represented by applying the
validation oracle to the stored schema, since both maps are always
updated together. -/
structure LoopState where
  state : Json
  schemas : List (String × Json)
  stream_2_filenames : List (String × String)
  key_properties : List (String × List String)
  headers : List (String × List String)
  fs : FS

/-- The behaviour of `Draft4Validator(schema).validate(record)`: an
oracle deciding whether validation succeeds (the `jsonschema` library
is an external collaborator). -/
abbrev ValOracle := Json → Rec → Bool

/-- Python truthiness of an optional string option: absent and `""`
are falsy, any non-empty string is truthy. -/
def truthy : Option String → Bool
  | none => false
  | some s => !s.isEmpty

/-- `os.path.join(destination_path, filename)` for a directory with no
trailing separator; `os.path.join('', f)` is `f`.  Tilde expansion
(`os.path.expanduser`) is not modelled. -/
def joinPath (dir filename : String) : String :=
  if dir = "" then filename else dir ++ "/" ++ filename

/-- The destination filename of line 69: `stream + '-' + now + '.csv'`,
with `now` the run-scoped timestamp fixed at line 53. -/
def fname (stream now : String) : String :=
  stream ++ "-" ++ now ++ ".csv"

/-- The full local path of a stream's destination file (line 71). -/
def pathOf (cfg : Config) (stream now : String) : String :=
  joinPath cfg.destination_path (fname stream now)

/-- Line 77's condition: `fixed_headers is not None and stream in
fixed_headers`. -/
def fixedCovers (cfg : Config) (stream : String) : Bool :=
  match cfg.fixed_headers with
  | none => false
  | some fh => (alookup fh stream).isSome

/-- `fixed_headers[stream]` (only consulted under `fixedCovers`). -/
def fixedList (cfg : Config) (stream : String) : List String :=
  match cfg.fixed_headers with
  | none => []
  | some fh => (alookup fh stream).getD []

/-- Line 72: `(not os.path.isfile(filename)) or os.stat(filename).st_size == 0`. -/
def fileIsEmptyIn (fs : FS) (path : String) : Bool :=
  match alookup fs path with
  | none => true
  | some f => f.isEmpty

/-- Lines 82-87: read the file's first line as the header list, falling
back to the record's field names when that first line is empty
(`first_line if first_line else flattened_record.keys()`). -/
def headerFromFile (file : List Row) (r : Rec) : List String :=
  match file with
  | [] => r.map Prod.fst
  | row :: _ => if row.isEmpty then r.map Prod.fst else row

/-- The row `csv.DictWriter(..., extrasaction='ignore')` writes for a
record (line 100): one cell per header column, the record's value for
that name, `''` (the default `restval`) when the field is missing;
fields not named in the header list are dropped. -/
def projRow (hs : List String) (r : Rec) : Row :=
  hs.map (fun h => (alookup r h).getD "")

/-- The header list in effect for a RECORD step (lines 77-89), as a
single function of the pre-step state. -/
def resolveHeaders (cfg : Config) (now : String) (st : LoopState) (stream : String)
    (r : Rec) : List String :=
  if fixedCovers cfg stream then
    match alookup st.headers stream with
    | some hs => hs
    | none => fixedList cfg stream
  else
    if (alookup st.headers stream).isNone &&
        !fileIsEmptyIn st.fs (pathOf cfg stream now) then
      headerFromFile ((alookup st.fs (pathOf cfg stream now)).getD []) r
    else
      r.map Prod.fst

/-- One iteration of the message loop (lines 55-113), for an
already-decoded message.  Raised exceptions become `Except.error`;
the error points (lines 64 and 67) precede every state mutation of the
RECORD branch, so the state is returned unchanged on error.  File
appends (lines 91-100) are modelled as total operations. -/
def step (cfg : Config) (vo : ValOracle) (now : String) (st : LoopState) :
    Message → Except Err LoopState
  | Message.schema stream sch kp =>
      Except.ok { st with
        schemas := aset st.schemas stream sch,
        key_properties := aset st.key_properties stream kp }
  | Message.state v => Except.ok { st with state := v }
  | Message.unknown => Except.ok st
  | Message.record stream r =>
      match alookup st.schemas stream with
      | none => Except.error (Err.unknownStream stream)
      | some sch =>
        if vo sch r then
          let filename := fname stream now
          let path := pathOf cfg stream now
          let oldFile := alookup st.fs path
          let fileEmpty := fileIsEmptyIn st.fs path
          let hdrs :=
            if fixedCovers cfg stream then
              if (alookup st.headers stream).isNone then
                aset st.headers stream (fixedList cfg stream)
              else st.headers
            else
              if (alookup st.headers stream).isNone && !fileEmpty then
                aset st.headers stream (headerFromFile (oldFile.getD []) r)
              else
                aset st.headers stream (r.map Prod.fst)
          let hs := (alookup hdrs stream).getD []
          let newFile := oldFile.getD [] ++ (if fileEmpty then [hs] else []) ++ [projRow hs r]
          Except.ok { st with
            stream_2_filenames := aset st.stream_2_filenames stream filename,
            headers := hdrs,
            fs := aset st.fs path newFile,
            state := Json.null }
        else Except.error (Err.validationFailed stream)

/-- The `for message in messages` loop: processes messages in order,
stopping at the first raised exception; returns the state reached
together with the error, if any. -/
def runLoop (cfg : Config) (vo : ValOracle) (now : String) :
    LoopState → List Message → LoopState × Option Err
  | st, [] => (st, none)
  | st, m :: ms =>
    match step cfg vo now st m with
    | Except.ok st' => runLoop cfg vo now st' ms
    | Except.error e => (st, some e)

/-- The state of `persist_messages` on entry (lines 46-51), over an
initial filesystem. -/
def initState (fs0 : FS) : LoopState :=
  { state := Json.null, schemas := [], stream_2_filenames := [],
    key_properties := [], headers := [], fs := fs0 }

/-- Line 114: `if(sftp_host and sftp_password and sftp_username and
sftp_public_key and sftp_public_key_format)` — Python truthiness over
exactly these five options. -/
def transferEnabled (cfg : Config) : Bool :=
  truthy cfg.sftp_host && truthy cfg.sftp_password && truthy cfg.sftp_username &&
    truthy cfg.sftp_public_key && truthy cfg.sftp_public_key_format

/-- The behaviour of the paramiko session: which operations fail.
`putFails f` is whether `sftp.put(f, f)` raises. -/
structure TransferOracle where
  connectFails : Bool
  openSftpFails : Bool
  putFails : String → Bool

/-- Observable outcome of the SFTP block: which resources were opened
and closed, which puts were attempted (in order), and whether the block
re-raised an exception. -/
structure TransferResult where
  clientOpened : Bool
  sftpOpened : Bool
  attemptedPuts : List String
  clientClosed : Bool
  sftpClosed : Bool
  failed : Bool

/-- The puts attempted by the loop of lines 124-126: files in manifest
order, stopping at (and including) the first failing put. -/
def attemptPuts (pf : String → Bool) : List String → List String × Bool
  | [] => ([], false)
  | f :: fs =>
    if pf f then ([f], true)
    else
      let r := attemptPuts pf fs
      (f :: r.1, r.2)

/-- The SFTP block, lines 114-133 (given the enabling check passed):
`SSHClient()` always constructs, then connect, `open_sftp`, and the put
loop each may fail; the `except` arm closes whatever of `sftp`/`client`
is non-None and re-raises, the `else` arm closes both. -/
def runTransfer (o : TransferOracle) (files : List String) : TransferResult :=
  if o.connectFails then
    { clientOpened := true, sftpOpened := false, attemptedPuts := [],
      clientClosed := true, sftpClosed := false, failed := true }
  else if o.openSftpFails then
    { clientOpened := true, sftpOpened := false, attemptedPuts := [],
      clientClosed := true, sftpClosed := false, failed := true }
  else
    let r := attemptPuts o.putFails files
    { clientOpened := true, sftpOpened := true, attemptedPuts := r.1,
      clientClosed := true, sftpClosed := true, failed := r.2 }

/-- The observable outcome of a whole `persist_messages` call:
`err = some _` means the call raised (so `main` never reaches
`emit_state`); `state_out = some v` is the returned `state` value
(line 134), present exactly when no exception escaped. -/
structure RunResult where
  loopState : LoopState
  err : Option Err
  transfer : Option TransferResult
  state_out : Option Json

/-- `persist_messages` end to end: the message loop, then the gated
SFTP block over `stream_2_filenames.values()` (note: the values stored
at line 70 are the bare filenames, before the `destination_path` join
of line 71), then the return of `state`. -/
def persist_messages (cfg : Config) (vo : ValOracle) (tro : TransferOracle)
    (now : String) (msgs : List Message) (fs0 : FS) : RunResult :=
  let r := runLoop cfg vo now (initState fs0) msgs
  match r.2 with
  | some e => { loopState := r.1, err := some e, transfer := none, state_out := none }
  | none =>
    if transferEnabled cfg then
      let tr := runTransfer tro (r.1.stream_2_filenames.map Prod.snd)
      if tr.failed then
        { loopState := r.1, err := some Err.transferError, transfer := some tr,
          state_out := none }
      else
        { loopState := r.1, err := none, transfer := some tr,
          state_out := some r.1.state }
    else
      { loopState := r.1, err := none, transfer := none, state_out := some r.1.state }

/-- `emit_state` (lines 23-28) applied to the value `persist_messages`
returned: the list of lines written to stdout.  Each emitted line is
flushed immediately; the Python `state is not None` test is `isNull`
here because a decoded JSON `null` payload is Python `None`. -/
def emit_state (v : Json) : List String :=
  if v.isNull then [] else [jsonEncode v]

/-- The stdout lines of a whole run: `main` calls `emit_state` only
when `persist_messages` returns (no fatal error). -/
def emittedLines (res : RunResult) : List String :=
  match res.state_out with
  | none => []
  | some v => emit_state v

/-- Modelled from the spec: one transition of the Checkpoint Tracker of
spec section 4.4 — `STATE(payload)` goes to `Holding(payload)`, any
successfully processed `RECORD` goes to `Empty` (null), other messages
leave it unchanged. -/
def checkpointUpd (acc : Json) (m : Message) : Json :=
  match m with
  | Message.record _ _ => Json.null
  | Message.state v => v
  | _ => acc

/-- Modelled from the spec: the Checkpoint Tracker of spec section 4.4
in the spec's own words — the most recent STATE payload, cleared to
empty (null) by every RECORD, read once at end-of-stream. -/
def specCheckpoint (msgs : List Message) : Json :=
  msgs.foldl checkpointUpd Json.null

/-- The successor state of a successfully processed RECORD, with the
header update of lines 77-89 expressed through `resolveHeaders`.
`step_record_eq` proves this equal to what `step` computes. -/
def recordSuccessor (cfg : Config) (now : String) (st : LoopState) (S : String)
    (r : Rec) : LoopState :=
  { st with
    stream_2_filenames := aset st.stream_2_filenames S (fname S now),
    headers := aset st.headers S (resolveHeaders cfg now st S r),
    fs := aset st.fs (pathOf cfg S now)
      ((alookup st.fs (pathOf cfg S now)).getD [] ++
        (if fileIsEmptyIn st.fs (pathOf cfg S now) then [resolveHeaders cfg now st S r]
         else []) ++
        [projRow (resolveHeaders cfg now st S r) r]),
    state := Json.null }

/-- Run invariant: every manifest entry maps a stream to the one
filename of line 69. -/
def manifestOk (now : String) (st : LoopState) : Prop :=
  ∀ k v, (k, v) ∈ st.stream_2_filenames → v = fname k now

/-- Invariant for a stream `S` configured with fixed header list `hs`:
its cached header entry is absent or exactly `hs`, and everything
appended to its destination file beyond the initial contents `old` is
either the header row `hs` or the `hs`-projection of some record. -/
def fixedRowsOk (cfg : Config) (now : String) (S : String) (hs : List String)
    (old : List Row) (st : LoopState) : Prop :=
  (alookup st.headers S = none ∨ alookup st.headers S = some hs) ∧
  ∃ rows, (alookup st.fs (pathOf cfg S now)).getD [] = old ++ rows ∧
    ∀ row ∈ rows, row = hs ∨ ∃ r : Rec, row = projRow hs r

/-! ## Concrete fixtures -/

/-- A configuration with every option at its default (no fixed headers,
no transfer credentials, empty destination path). -/
def cfgBase : Config :=
  { delimiter := ",", quotechar := "\"", destination_path := "",
    fixed_headers := none, sftp_host := none, sftp_username := none,
    sftp_password := none, sftp_port := none, sftp_public_key := none,
    sftp_public_key_format := none }

/-- A validator oracle that accepts every record. -/
def voAll : ValOracle := fun _ _ => true

/-- A transfer oracle on which no operation fails. -/
def troOk : TransferOracle :=
  { connectFails := false, openSftpFails := false, putFails := fun _ => false }

/-- `cfgBase` with a fixed header list `[z]` for stream `s`. -/
def cfgFixed : Config :=
  { cfgBase with fixed_headers := some [("s", ["z"])] }

/-- `cfgBase` with the five transfer credentials of line 114 set and
`sftp_port` absent. -/
def cfgNoPort : Config :=
  { cfgBase with
      sftp_host := some "h", sftp_username := some "u", sftp_password := some "p",
      sftp_public_key := some "k", sftp_public_key_format := some "f" }

/-- `cfgNoPort` with a non-empty destination directory. -/
def cfgOut : Config :=
  { cfgNoPort with destination_path := "out" }

/-- SCHEMA for `s`, then two records whose field sets differ. -/
def msgsC3 : List Message :=
  [Message.schema "s" Json.null [],
   Message.record "s" [("a", "1")],
   Message.record "s" [("a", "1"), ("b", "2")]]

/-- SCHEMA for `s`, then one record with fields `x`, `y`. -/
def msgsXY : List Message :=
  [Message.schema "s" Json.null [],
   Message.record "s" [("x", "1"), ("y", "2")]]

/-- SCHEMA for `s`, then one record, then a STATE checkpoint. -/
def msgsC1 : List Message :=
  [Message.schema "s" Json.null [],
   Message.record "s" [("a", "1")],
   Message.state (Json.obj [("bookmark", Json.num 42)])]

/-- SCHEMA for `s`, then one record with field `a`. -/
def msgsC7 : List Message :=
  [Message.schema "s" Json.null [],
   Message.record "s" [("a", "1")]]

/-- A mid-run loop state for stream `s`: schema declared, header
already resolved to `[a]`, destination file holding a header row and
one record row. -/
def stMid : LoopState :=
  { state := Json.null, schemas := [("s", Json.null)], stream_2_filenames := [],
    key_properties := [], headers := [("s", ["a"])],
    fs := [("s-T.csv", [["a"], ["1"]])] }

/-- A loop state in which only the schema for `s` has been declared. -/
def stSchemaOnly : LoopState :=
  { state := Json.null, schemas := [("s", Json.null)], stream_2_filenames := [],
    key_properties := [], headers := [], fs := [] }

/-- A transfer oracle failing exactly on the put of file `b`. -/
def troFailB : TransferOracle :=
  { connectFails := false, openSftpFails := false, putFails := fun f => f == "b" }

/-! ## Association-list lemmas -/

theorem alookup_aset_self {α : Type} (l : List (String × α)) (k : String) (v : α) :
    alookup (aset l k v) k = some v := by
  induction l with
  | nil => simp [aset, alookup]
  | cons p t ih =>
    obtain ⟨k', v'⟩ := p
    by_cases h : k' = k
    · subst h; simp [aset, alookup]
    · simp [aset, alookup, h, ih]

theorem alookup_aset_ne {α : Type} (l : List (String × α)) (k j : String) (v : α)
    (h : k ≠ j) : alookup (aset l j v) k = alookup l k := by
  induction l with
  | nil => simp [aset, alookup, Ne.symm h]
  | cons p t ih =>
    obtain ⟨k₀, v₀⟩ := p
    by_cases h0 : k₀ = j
    · subst h0
      simp [aset, alookup, Ne.symm h]
    · by_cases h1 : k₀ = k <;> simp [aset, alookup, h0, h1, ih, h]

theorem aset_of_alookup_eq {α : Type} (l : List (String × α)) (k : String) (v : α)
    (h : alookup l k = some v) : aset l k v = l := by
  induction l with
  | nil => simp [alookup] at h
  | cons p t ih =>
    obtain ⟨k₀, v₀⟩ := p
    by_cases h0 : k₀ = k
    · subst h0
      simp [alookup] at h
      simp [aset, h]
    · simp [alookup, h0] at h
      simp [aset, h0, ih h]

theorem alookup_isSome_of_mem {α : Type} (l : List (String × α)) (k : String) (v : α)
    (h : (k, v) ∈ l) : (alookup l k).isSome := by
  induction l with
  | nil => simp at h
  | cons p t ih =>
    obtain ⟨k₀, v₀⟩ := p
    rcases List.mem_cons.mp h with h1 | h1
    · cases h1; simp [alookup]
    · by_cases h0 : k₀ = k <;> simp [alookup, h0, ih h1]

theorem exists_mem_of_mem_values {α : Type} (l : List (String × α)) (v : α)
    (h : v ∈ l.map Prod.snd) : ∃ k, (k, v) ∈ l := by
  rcases List.mem_map.mp h with ⟨⟨k, v'⟩, hm, he⟩
  exact ⟨k, by simpa [he.symm] using hm⟩

/-! ## Filename and path injectivity -/

theorem string_data_append (a b : String) : (a ++ b).data = a.data ++ b.data := rfl

theorem string_append_cancel_right {a b c : String} (h : a ++ c = b ++ c) : a = b :=
  congrArg String.mk (List.append_cancel_right (congrArg String.data h))

theorem string_append_cancel_left {a b c : String} (h : c ++ a = c ++ b) : a = b :=
  congrArg String.mk (List.append_cancel_left (congrArg String.data h))

theorem fname_inj {s₁ s₂ now : String} (h : fname s₁ now = fname s₂ now) : s₁ = s₂ := by
  unfold fname at h
  have h1 := string_append_cancel_right h
  have h2 := string_append_cancel_right h1
  exact string_append_cancel_right h2

theorem pathOf_inj {cfg : Config} {s₁ s₂ now : String}
    (h : pathOf cfg s₁ now = pathOf cfg s₂ now) : s₁ = s₂ := by
  unfold pathOf joinPath at h
  by_cases hd : cfg.destination_path = ""
  · simp [hd] at h
    exact fname_inj h
  · simp [hd] at h
    exact fname_inj (string_append_cancel_left (string_append_cancel_left
      (by simpa [String.append_assoc] using h)))

/-! ## Step equations -/

theorem step_schema_eq (cfg : Config) (vo : ValOracle) (now : String) (st : LoopState)
    (S : String) (sch : Json) (kp : List String) :
    step cfg vo now st (Message.schema S sch kp) =
      Except.ok { st with
        schemas := aset st.schemas S sch,
        key_properties := aset st.key_properties S kp } := rfl

theorem step_state_eq (cfg : Config) (vo : ValOracle) (now : String) (st : LoopState)
    (v : Json) :
    step cfg vo now st (Message.state v) = Except.ok { st with state := v } := rfl

theorem step_unknown_eq (cfg : Config) (vo : ValOracle) (now : String) (st : LoopState) :
    step cfg vo now st Message.unknown = Except.ok st := rfl

theorem step_record_unknown (cfg : Config) (vo : ValOracle) (now : String)
    (st : LoopState) (S : String) (r : Rec) (h : alookup st.schemas S = none) :
    step cfg vo now st (Message.record S r) = Except.error (Err.unknownStream S) := by
  simp [step, h]

theorem step_record_invalid (cfg : Config) (vo : ValOracle) (now : String)
    (st : LoopState) (S : String) (r : Rec) (sch : Json)
    (h : alookup st.schemas S = some sch) (hv : vo sch r = false) :
    step cfg vo now st (Message.record S r) = Except.error (Err.validationFailed S) := by
  simp [step, h, hv]

theorem headers_update_eq (cfg : Config) (now : String) (st : LoopState) (S : String)
    (r : Rec) :
    (if fixedCovers cfg S then
      if (alookup st.headers S).isNone then aset st.headers S (fixedList cfg S)
      else st.headers
     else
      if (alookup st.headers S).isNone &&
          !fileIsEmptyIn st.fs (pathOf cfg S now) then
        aset st.headers S
          (headerFromFile ((alookup st.fs (pathOf cfg S now)).getD []) r)
      else aset st.headers S (r.map Prod.fst)) =
    aset st.headers S (resolveHeaders cfg now st S r) := by
  unfold resolveHeaders
  cases hf : fixedCovers cfg S with
  | true =>
    simp only [if_pos]
    cases hh : alookup st.headers S with
    | none => simp
    | some hs0 => simp [aset_of_alookup_eq st.headers S hs0 hh]
  | false =>
    simp only [hf, Bool.false_eq_true, if_false]
    split <;> rfl

theorem step_record_eq (cfg : Config) (vo : ValOracle) (now : String) (st : LoopState)
    (S : String) (r : Rec) (sch : Json)
    (h : alookup st.schemas S = some sch) (hv : vo sch r = true) :
    step cfg vo now st (Message.record S r) =
      Except.ok (recordSuccessor cfg now st S r) := by
  simp only [step, h, hv, if_true]
  rw [headers_update_eq]
  simp [recordSuccessor, alookup_aset_self]

/-! ## Loop lemmas -/

theorem runLoop_append (cfg : Config) (vo : ValOracle) (now : String) (st : LoopState)
    (xs ys : List Message) :
    runLoop cfg vo now st (xs ++ ys) =
      match runLoop cfg vo now st xs with
      | (st', none) => runLoop cfg vo now st' ys
      | (st', some e) => (st', some e) := by
  induction xs generalizing st with
  | nil => simp [runLoop]
  | cons m ms ih =>
    simp only [List.cons_append, runLoop]
    cases step cfg vo now st m with
    | ok st1 => exact ih st1
    | error e => rfl

theorem runLoop_inv (cfg : Config) (vo : ValOracle) (now : String) (P : LoopState → Prop)
    (hstep : ∀ st m st', step cfg vo now st m = Except.ok st' → P st → P st') :
    ∀ (msgs : List Message) (st0 st : LoopState) (e : Option Err),
      runLoop cfg vo now st0 msgs = (st, e) → P st0 → P st := by
  intro msgs
  induction msgs with
  | nil =>
    intro st0 st e h hp
    simp only [runLoop, Prod.mk.injEq] at h
    rw [← h.1]; exact hp
  | cons m ms ih =>
    intro st0 st e h hp
    simp only [runLoop] at h
    cases hs : step cfg vo now st0 m with
    | ok st1 =>
      rw [hs] at h
      exact ih st1 st e h (hstep st0 m st1 hs hp)
    | error e' =>
      rw [hs] at h
      simp only [Prod.mk.injEq] at h
      rw [← h.1]; exact hp

/-! ## Transfer lemmas -/

theorem attemptPuts_eq (pf : String → Bool) (l : List String) :
    attemptPuts pf l =
      (l.takeWhile (fun f => !pf f) ++ (l.dropWhile (fun f => !pf f)).take 1,
        l.any pf) := by
  induction l with
  | nil => simp [attemptPuts]
  | cons f fs ih =>
    cases hf : pf f <;>
      simp [attemptPuts, hf, List.takeWhile_cons, List.dropWhile_cons, ih]

/-! ## Run-level lemmas -/

theorem runLoop_state (cfg : Config) (vo : ValOracle) (now : String) :
    ∀ (msgs : List Message) (st0 st : LoopState),
      runLoop cfg vo now st0 msgs = (st, none) →
      st.state = msgs.foldl checkpointUpd st0.state := by
  intro msgs
  induction msgs with
  | nil =>
    intro st0 st h
    simp only [runLoop, Prod.mk.injEq] at h
    simp [← h.1]
  | cons m ms ih =>
    intro st0 st h
    simp only [runLoop] at h
    cases m with
    | schema S sch kp =>
      simp only [step_schema_eq] at h
      simpa [checkpointUpd] using ih _ st h
    | state v =>
      simp only [step_state_eq] at h
      simpa [checkpointUpd] using ih _ st h
    | unknown =>
      simp only [step_unknown_eq] at h
      simpa [checkpointUpd] using ih _ st h
    | record S r =>
      cases hsch : alookup st0.schemas S with
      | none =>
        simp only [step_record_unknown cfg vo now st0 S r hsch] at h
        simp at h
      | some sch =>
        cases hv : vo sch r with
        | false =>
          simp only [step_record_invalid cfg vo now st0 S r sch hsch hv] at h
          simp at h
        | true =>
          simp only [step_record_eq cfg vo now st0 S r sch hsch hv] at h
          simpa [checkpointUpd, recordSuccessor] using ih _ st h

theorem runLoop_schemas_of_no_schema (cfg : Config) (vo : ValOracle) (now : String)
    (S : String) :
    ∀ (msgs : List Message) (st0 st : LoopState) (e : Option Err),
      runLoop cfg vo now st0 msgs = (st, e) →
      (∀ sch kp, Message.schema S sch kp ∉ msgs) →
      alookup st.schemas S = alookup st0.schemas S := by
  intro msgs
  induction msgs with
  | nil =>
    intro st0 st e h _
    simp only [runLoop, Prod.mk.injEq] at h
    rw [← h.1]
  | cons m ms ih =>
    intro st0 st e h hno
    simp only [runLoop] at h
    have hnoTail : ∀ sch kp, Message.schema S sch kp ∉ ms := by
      intro sch kp hmem
      exact hno sch kp (List.mem_cons_of_mem m hmem)
    cases m with
    | schema S' sch kp =>
      have hne : S' ≠ S := by
        intro he
        subst he
        exact hno sch kp (List.mem_cons_self _ _)
      simp only [step_schema_eq] at h
      rw [ih _ st e h hnoTail]
      exact alookup_aset_ne st0.schemas S S' sch (fun e0 => hne e0.symm)
    | state v =>
      simp only [step_state_eq] at h
      rw [ih _ st e h hnoTail]
    | unknown =>
      simp only [step_unknown_eq] at h
      exact ih _ st e h hnoTail
    | record S' r =>
      cases hsch : alookup st0.schemas S' with
      | none =>
        simp only [step_record_unknown cfg vo now st0 S' r hsch, Prod.mk.injEq] at h
        rw [← h.1]
      | some sch =>
        cases hv : vo sch r with
        | false =>
          simp only [step_record_invalid cfg vo now st0 S' r sch hsch hv, Prod.mk.injEq] at h
          rw [← h.1]
        | true =>
          simp only [step_record_eq cfg vo now st0 S' r sch hsch hv] at h
          rw [ih _ st e h hnoTail]
          simp [recordSuccessor]

/-- Any successful step is one of the four message shapes, with the
successor state it produces. -/
theorem step_ok_shape (cfg : Config) (vo : ValOracle) (now : String) (st : LoopState)
    (m : Message) (st' : LoopState) (h : step cfg vo now st m = Except.ok st') :
    (∃ S sch kp, m = Message.schema S sch kp ∧
      st' = { st with schemas := aset st.schemas S sch,
                      key_properties := aset st.key_properties S kp }) ∨
    (∃ v, m = Message.state v ∧ st' = { st with state := v }) ∨
    (m = Message.unknown ∧ st' = st) ∨
    (∃ S r sch, m = Message.record S r ∧ alookup st.schemas S = some sch ∧
      vo sch r = true ∧ st' = recordSuccessor cfg now st S r) := by
  cases m with
  | schema S sch kp =>
    rw [step_schema_eq] at h
    exact Or.inl ⟨S, sch, kp, rfl, (Except.ok.injEq _ _).mp h.symm⟩
  | state v =>
    rw [step_state_eq] at h
    exact Or.inr (Or.inl ⟨v, rfl, (Except.ok.injEq _ _).mp h.symm⟩)
  | unknown =>
    rw [step_unknown_eq] at h
    exact Or.inr (Or.inr (Or.inl ⟨rfl, (Except.ok.injEq _ _).mp h.symm⟩))
  | record S r =>
    cases hsch : alookup st.schemas S with
    | none => rw [step_record_unknown cfg vo now st S r hsch] at h; simp at h
    | some sch =>
      cases hv : vo sch r with
      | false => rw [step_record_invalid cfg vo now st S r sch hsch hv] at h; simp at h
      | true =>
        rw [step_record_eq cfg vo now st S r sch hsch hv] at h
        exact Or.inr (Or.inr (Or.inr
          ⟨S, r, sch, rfl, hsch, hv, (Except.ok.injEq _ _).mp h.symm⟩))

theorem mem_aset {α : Type} (l : List (String × α)) (j k : String) (v w : α)
    (h : (k, v) ∈ aset l j w) : (k, v) ∈ l ∨ (k = j ∧ v = w) := by
  induction l with
  | nil =>
    simp [aset] at h
    exact Or.inr h
  | cons p t ih =>
    obtain ⟨k₀, v₀⟩ := p
    by_cases h0 : k₀ = j
    · subst h0
      simp only [aset, if_pos rfl] at h
      rcases List.mem_cons.mp h with h1 | h1
      · exact Or.inr ⟨congrArg Prod.fst h1, congrArg Prod.snd h1⟩
      · exact Or.inl (List.mem_cons_of_mem _ h1)
    · simp only [aset, if_neg h0] at h
      rcases List.mem_cons.mp h with h1 | h1
      · exact Or.inl (List.mem_cons.mpr (Or.inl h1))
      · rcases ih h1 with h2 | h2
        · exact Or.inl (List.mem_cons_of_mem _ h2)
        · exact Or.inr h2

theorem runLoop_manifestOk (cfg : Config) (vo : ValOracle) (now : String)
    (msgs : List Message) (st0 st : LoopState) (e : Option Err)
    (h : runLoop cfg vo now st0 msgs = (st, e)) (h0 : manifestOk now st0) :
    manifestOk now st := by
  refine runLoop_inv cfg vo now (manifestOk now) ?_ msgs st0 st e h h0
  intro st1 m st2 hs hp
  rcases step_ok_shape cfg vo now st1 m st2 hs with
    ⟨S, sch, kp, _, h2⟩ | ⟨v, _, h2⟩ | ⟨_, h2⟩ | ⟨S, r, sch, _, _, _, h2⟩ <;>
    subst h2
  · exact hp
  · exact hp
  · exact hp
  · intro k v hmem
    simp only [recordSuccessor] at hmem
    rcases mem_aset _ _ _ _ _ hmem with h3 | ⟨h3, h4⟩
    · exact hp k v h3
    · rw [h3, h4]

/-- Looking a stream up in the manifest stays populated once populated. -/
theorem runLoop_s2f_isSome (cfg : Config) (vo : ValOracle) (now : String) (S : String)
    (msgs : List Message) (st0 st : LoopState) (e : Option Err)
    (h : runLoop cfg vo now st0 msgs = (st, e))
    (h0 : (alookup st0.stream_2_filenames S).isSome) :
    (alookup st.stream_2_filenames S).isSome := by
  refine runLoop_inv cfg vo now
    (fun s => (alookup s.stream_2_filenames S).isSome) ?_ msgs st0 st e h h0
  intro st1 m st2 hs hp
  rcases step_ok_shape cfg vo now st1 m st2 hs with
    ⟨S', sch, kp, _, h2⟩ | ⟨v, _, h2⟩ | ⟨_, h2⟩ | ⟨S', r, sch, _, _, _, h2⟩ <;>
    subst h2
  · exact hp
  · exact hp
  · exact hp
  · simp only [recordSuccessor]
    by_cases hSS : S = S'
    · subst hSS; simp [alookup_aset_self]
    · rw [alookup_aset_ne _ _ _ _ hSS]; exact hp

/-- The manifest gains an entry for a stream exactly at that stream's
successfully processed RECORD messages. -/
theorem runLoop_s2f_iff (cfg : Config) (vo : ValOracle) (now : String) (S : String) :
    ∀ (msgs : List Message) (st0 st : LoopState),
      runLoop cfg vo now st0 msgs = (st, none) →
      ((alookup st.stream_2_filenames S).isSome ↔
        (alookup st0.stream_2_filenames S).isSome ∨ ∃ r, Message.record S r ∈ msgs) := by
  intro msgs
  induction msgs with
  | nil =>
    intro st0 st h
    simp only [runLoop, Prod.mk.injEq] at h
    simp [← h.1]
  | cons m ms ih =>
    intro st0 st h
    simp only [runLoop] at h
    cases hs : step cfg vo now st0 m with
    | error e' => rw [hs] at h; simp at h
    | ok st1 =>
      rw [hs] at h
      rcases step_ok_shape cfg vo now st0 m st1 hs with
        ⟨S', sch, kp, hm, h2⟩ | ⟨v, hm, h2⟩ | ⟨hm, h2⟩ | ⟨S', r, sch, hm, _, _, h2⟩ <;>
        subst hm <;> subst h2
      · rw [ih _ st h]
        simp [List.mem_cons]
      · rw [ih _ st h]
        simp [List.mem_cons]
      · rw [ih _ st h]
        simp [List.mem_cons]
      · by_cases hSS : S = S'
        · subst hSS
          constructor
          · intro _
            exact Or.inr ⟨r, List.mem_cons_self _ _⟩
          · intro _
            refine runLoop_s2f_isSome cfg vo now S ms _ st none h ?_
            simp [recordSuccessor, alookup_aset_self]
        · rw [ih _ st h]
          simp only [recordSuccessor]
          rw [alookup_aset_ne _ _ _ _ hSS]
          simp [List.mem_cons, Message.record.injEq, hSS]

/-- A stream with no RECORD in the input keeps its destination file
untouched (other streams write to other paths). -/
theorem runLoop_fs_preserved (cfg : Config) (vo : ValOracle) (now : String) (S : String) :
    ∀ (msgs : List Message) (st0 st : LoopState) (e : Option Err),
      runLoop cfg vo now st0 msgs = (st, e) →
      (∀ r, Message.record S r ∉ msgs) →
      alookup st.fs (pathOf cfg S now) = alookup st0.fs (pathOf cfg S now) := by
  intro msgs
  induction msgs with
  | nil =>
    intro st0 st e h _
    simp only [runLoop, Prod.mk.injEq] at h
    rw [← h.1]
  | cons m ms ih =>
    intro st0 st e h hno
    simp only [runLoop] at h
    have hnoTail : ∀ r, Message.record S r ∉ ms := by
      intro r hmem
      exact hno r (List.mem_cons_of_mem m hmem)
    cases hs : step cfg vo now st0 m with
    | error e' =>
      rw [hs] at h
      simp only [Prod.mk.injEq] at h
      rw [← h.1]
    | ok st1 =>
      rw [hs] at h
      rcases step_ok_shape cfg vo now st0 m st1 hs with
        ⟨S', sch, kp, hm, h2⟩ | ⟨v, hm, h2⟩ | ⟨hm, h2⟩ | ⟨S', r, sch, hm, _, _, h2⟩ <;>
        subst hm <;> subst h2
      · rw [ih _ st e h hnoTail]
      · rw [ih _ st e h hnoTail]
      · rw [ih _ st e h hnoTail]
      · have hSS : S ≠ S' := by
          intro he
          subst he
          exact hno r (List.mem_cons_self _ _)
        rw [ih _ st e h hnoTail]
        simp only [recordSuccessor]
        refine alookup_aset_ne _ _ _ _ ?_
        intro he
        exact hSS (pathOf_inj he)

theorem attemptPuts_mem (pf : String → Bool) :
    ∀ (l : List String) (f : String), f ∈ (attemptPuts pf l).1 → f ∈ l := by
  intro l
  induction l with
  | nil => intro f h; simp [attemptPuts] at h
  | cons g gs ih =>
    intro f h
    cases hg : pf g with
    | true =>
      simp only [attemptPuts, hg, if_pos] at h
      simp at h
      simp [h]
    | false =>
      simp only [attemptPuts, hg, Bool.false_eq_true, if_false] at h
      rcases List.mem_cons.mp h with h1 | h1
      · simp [h1]
      · exact List.mem_cons_of_mem _ (ih f h1)

/-- When the header list is the record's own field names (no duplicate
field names, as for a decoded Python dict), the written row is exactly
the record's values in field order. -/
theorem projRow_keys (r : Rec) (h : (r.map Prod.fst).Nodup) :
    projRow (r.map Prod.fst) r = r.map Prod.snd := by
  induction r with
  | nil => simp [projRow]
  | cons p t ih =>
    obtain ⟨k, v⟩ := p
    simp only [List.map_cons, List.nodup_cons] at h
    simp only [projRow, List.map_cons, alookup, if_pos rfl, Option.getD_some]
    refine congrArg (v :: ·) ?_
    rw [← ih h.2]
    refine List.map_congr_left ?_
    intro a ha
    have hka : ¬k = a := by
      intro he
      exact h.1 (by rw [he]; exact ha)
    simp [alookup, hka]

/-! ## Fixed-header invariant -/

theorem resolveHeaders_fixed (cfg : Config) (now : String) (st : LoopState)
    (S : String) (r : Rec) (fh : List (String × List String)) (hs : List String)
    (hfh : cfg.fixed_headers = some fh) (hS : alookup fh S = some hs)
    (hinv : alookup st.headers S = none ∨ alookup st.headers S = some hs) :
    resolveHeaders cfg now st S r = hs := by
  have hcov : fixedCovers cfg S = true := by
    simp [fixedCovers, hfh, hS]
  unfold resolveHeaders
  rw [hcov]
  rcases hinv with h0 | h0 <;> simp [h0, fixedList, hfh, hS]

theorem step_fixedRowsOk (cfg : Config) (vo : ValOracle) (now : String)
    (S : String) (hs : List String) (old : List Row)
    (fh : List (String × List String))
    (hfh : cfg.fixed_headers = some fh) (hS : alookup fh S = some hs)
    (st : LoopState) (m : Message) (st' : LoopState)
    (hstep : step cfg vo now st m = Except.ok st')
    (hinv : fixedRowsOk cfg now S hs old st) :
    fixedRowsOk cfg now S hs old st' := by
  rcases step_ok_shape cfg vo now st m st' hstep with
    ⟨S', sch, kp, _, h2⟩ | ⟨v, _, h2⟩ | ⟨_, h2⟩ | ⟨S', r, sch, _, _, _, h2⟩ <;>
    subst h2
  · exact hinv
  · exact hinv
  · exact hinv
  · by_cases hSS : S = S'
    · subst hSS
      have hres : resolveHeaders cfg now st S r = hs :=
        resolveHeaders_fixed cfg now st S r fh hs hfh hS hinv.1
      obtain ⟨rows, hfile, hrows⟩ := hinv.2
      constructor
      · right
        simp [recordSuccessor, alookup_aset_self, hres]
      · refine ⟨rows ++ (if fileIsEmptyIn st.fs (pathOf cfg S now) then [hs] else []) ++
          [projRow hs r], ?_, ?_⟩
        · simp only [recordSuccessor, alookup_aset_self, Option.getD_some, hres]
          rw [hfile]
          simp [List.append_assoc]
        · intro row hrow
          rcases List.mem_append.mp hrow with h3 | h3
          · rcases List.mem_append.mp h3 with h4 | h4
            · exact hrows row h4
            · left
              rcases Bool.eq_false_or_eq_true (fileIsEmptyIn st.fs (pathOf cfg S now))
                with he | he <;> simp [he] at h4
              exact h4
          · right
            exact ⟨r, by simpa using h3⟩
    · constructor
      · simp only [recordSuccessor]
        rw [alookup_aset_ne _ _ _ _ hSS]
        exact hinv.1
      · obtain ⟨rows, hfile, hrows⟩ := hinv.2
        refine ⟨rows, ?_, hrows⟩
        simp only [recordSuccessor]
        rw [alookup_aset_ne _ _ _ _ (fun he => hSS (pathOf_inj he))]
        exact hfile

theorem runLoop_fixedRowsOk (cfg : Config) (vo : ValOracle) (now : String)
    (S : String) (hs : List String) (fh : List (String × List String))
    (hfh : cfg.fixed_headers = some fh) (hS : alookup fh S = some hs)
    (msgs : List Message) (fs0 : FS) (st : LoopState) (e : Option Err)
    (h : runLoop cfg vo now (initState fs0) msgs = (st, e)) :
    fixedRowsOk cfg now S hs ((alookup fs0 (pathOf cfg S now)).getD []) st := by
  refine runLoop_inv cfg vo now
    (fixedRowsOk cfg now S hs ((alookup fs0 (pathOf cfg S now)).getD []))
    (fun st1 m st2 hstep hp =>
      step_fixedRowsOk cfg vo now S hs _ fh hfh hS st1 m st2 hstep hp)
    msgs (initState fs0) st e h ?_
  exact ⟨Or.inl rfl, [], by simp [initState], by simp⟩

/-! ## Configuration congruence -/

theorem step_cfg_congr (c₁ c₂ : Config) (h1 : c₁.destination_path = c₂.destination_path)
    (h2 : c₁.fixed_headers = c₂.fixed_headers) (vo : ValOracle) (now : String)
    (st : LoopState) (m : Message) :
    step c₁ vo now st m = step c₂ vo now st m := by
  cases m with
  | schema S sch kp => rfl
  | state v => rfl
  | unknown => rfl
  | record S r =>
    have hp : pathOf c₁ S now = pathOf c₂ S now := by
      simp [pathOf, joinPath, h1]
    have hfc : fixedCovers c₁ S = fixedCovers c₂ S := by
      simp [fixedCovers, h2]
    have hfl : fixedList c₁ S = fixedList c₂ S := by
      simp [fixedList, h2]
    simp only [step, hp, hfc, hfl]

theorem runLoop_cfg_congr (c₁ c₂ : Config)
    (h1 : c₁.destination_path = c₂.destination_path)
    (h2 : c₁.fixed_headers = c₂.fixed_headers) (vo : ValOracle) (now : String) :
    ∀ (msgs : List Message) (st : LoopState),
      runLoop c₁ vo now st msgs = runLoop c₂ vo now st msgs := by
  intro msgs
  induction msgs with
  | nil => intro st; rfl
  | cons m ms ih =>
    intro st
    simp only [runLoop, step_cfg_congr c₁ c₂ h1 h2 vo now st m]
    cases step c₂ vo now st m with
    | ok st1 => exact ih st1
    | error e => rfl

theorem persist_cfg_congr (c₁ c₂ : Config)
    (h1 : c₁.destination_path = c₂.destination_path)
    (h2 : c₁.fixed_headers = c₂.fixed_headers)
    (h3 : transferEnabled c₁ = transferEnabled c₂)
    (vo : ValOracle) (tro : TransferOracle) (now : String) (msgs : List Message)
    (fs0 : FS) :
    persist_messages c₁ vo tro now msgs fs0 = persist_messages c₂ vo tro now msgs fs0 := by
  unfold persist_messages
  rw [runLoop_cfg_congr c₁ c₂ h1 h2 vo now msgs (initState fs0), h3]

/-! ## persist_messages case lemmas -/

theorem persist_transfer_none (cfg : Config) (vo : ValOracle) (tro : TransferOracle)
    (now : String) (msgs : List Message) (fs0 : FS)
    (h : transferEnabled cfg = false) :
    (persist_messages cfg vo tro now msgs fs0).transfer = none := by
  rcases hrun : runLoop cfg vo now (initState fs0) msgs with ⟨st, e⟩
  cases e with
  | some e' => simp [persist_messages, hrun]
  | none => simp [persist_messages, hrun, h]

theorem persist_transfer_isSome (cfg : Config) (vo : ValOracle) (tro : TransferOracle)
    (now : String) (msgs : List Message) (fs0 : FS)
    (h : transferEnabled cfg = true)
    (hl : (runLoop cfg vo now (initState fs0) msgs).2 = none) :
    (persist_messages cfg vo tro now msgs fs0).transfer.isSome := by
  rcases hrun : runLoop cfg vo now (initState fs0) msgs with ⟨st, e⟩
  rw [hrun] at hl
  simp only at hl
  subst hl
  simp only [persist_messages, hrun, h, if_true]
  split <;> simp

theorem persist_err_none_shape (cfg : Config) (vo : ValOracle) (tro : TransferOracle)
    (now : String) (msgs : List Message) (fs0 : FS)
    (h : (persist_messages cfg vo tro now msgs fs0).err = none) :
    ∃ st, runLoop cfg vo now (initState fs0) msgs = (st, none) ∧
      (persist_messages cfg vo tro now msgs fs0).state_out = some st.state ∧
      (persist_messages cfg vo tro now msgs fs0).loopState = st := by
  rcases hrun : runLoop cfg vo now (initState fs0) msgs with ⟨st, e⟩
  cases e with
  | some e' => simp [persist_messages, hrun] at h
  | none =>
    refine ⟨st, rfl, ?_⟩
    cases hen : transferEnabled cfg with
    | false => simp [persist_messages, hrun, hen]
    | true =>
      cases hfl : (runTransfer tro (st.stream_2_filenames.map Prod.snd)).failed with
      | true => simp [persist_messages, hrun, hen, hfl] at h
      | false => simp [persist_messages, hrun, hen, hfl]

theorem alookup_mem {α : Type} (l : List (String × α)) (k : String) (v : α)
    (h : alookup l k = some v) : (k, v) ∈ l := by
  induction l with
  | nil => simp [alookup] at h
  | cons p t ih =>
    obtain ⟨k₀, v₀⟩ := p
    by_cases h0 : k₀ = k
    · subst h0
      simp [alookup] at h
      subst h
      exact List.mem_cons_self _ _
    · simp only [alookup, if_neg h0] at h
      exact List.mem_cons_of_mem _ (ih h)

theorem getD_of_fileIsEmpty (fs : FS) (p : String) (h : fileIsEmptyIn fs p = true) :
    (alookup fs p).getD [] = [] := by
  unfold fileIsEmptyIn at h
  cases hl : alookup fs p with
  | none => simp
  | some f =>
    rw [hl] at h
    simp only [List.isEmpty_iff] at h
    simp [h]

/-! ## Claims -/

/-- C1 (counterexample): the claim says a checkpoint line is emitted
whenever STATE messages occurred and no RECORD was ever written.  On
the input consisting of the single message STATE with payload `null`
(Python `None`), the run completes without fatal error, no RECORD
occurs, a STATE occurs — yet line 24's `state is not None` test fails
and no checkpoint line is written to stdout. -/
theorem c1_counterexample :
    (persist_messages cfgBase voAll troOk "T" [Message.state Json.null] []).err = none ∧
    ([Message.state Json.null].all (fun m => !m.isRecord)) = true ∧
    ([Message.state Json.null].any Message.isState) = true ∧
    emittedLines (persist_messages cfgBase voAll troOk "T" [Message.state Json.null] []) = [] :=
  ⟨rfl, rfl, rfl, rfl⟩

/-- C1 (amended): for every run that completes without fatal error, a
checkpoint line is emitted iff the checkpoint tracker's final value —
the payload of the last STATE processed after the last written RECORD,
null if none — is non-null; in that case exactly one line is written,
the JSON encoding of that payload. -/
theorem c1_amended (cfg : Config) (vo : ValOracle) (tro : TransferOracle)
    (now : String) (msgs : List Message) (fs0 : FS)
    (h : (persist_messages cfg vo tro now msgs fs0).err = none) :
    emittedLines (persist_messages cfg vo tro now msgs fs0) =
      if (specCheckpoint msgs).isNull then [] else [jsonEncode (specCheckpoint msgs)] := by
  obtain ⟨st, hrun, hout, _⟩ := persist_err_none_shape cfg vo tro now msgs fs0 h
  have hstate : st.state = specCheckpoint msgs := by
    have h2 := runLoop_state cfg vo now msgs (initState fs0) st hrun
    simpa [initState, specCheckpoint] using h2
  simp only [emittedLines, hout, hstate, emit_state]

/-- C1 (witness): a RECORD followed by a STATE with payload
`{"bookmark": 42}` yields exactly the JSON encoding of that payload. -/
theorem c1_amended_witness :
    emittedLines (persist_messages cfgBase voAll troOk "T" msgsC1 []) =
      [jsonEncode (Json.obj [("bookmark", Json.num 42)])] :=
  c1_amended cfgBase voAll troOk "T" msgsC1 [] rfl

/-- C2: a RECORD for a stream with no prior SCHEMA makes the run fail
at that message with the unknown-stream error of line 64: the loop
stops there with the state exactly as it was before the record (so no
row is written for it), and the remaining input is never processed. -/
theorem c2_unknown_stream (cfg : Config) (vo : ValOracle) (now : String) (fs0 : FS)
    (pre rest : List Message) (S : String) (r : Rec) (st' : LoopState)
    (hpre : runLoop cfg vo now (initState fs0) pre = (st', none))
    (hnos : ∀ sch kp, Message.schema S sch kp ∉ pre) :
    runLoop cfg vo now (initState fs0) (pre ++ Message.record S r :: rest) =
      (st', some (Err.unknownStream S)) := by
  have hsch : alookup st'.schemas S = none := by
    rw [runLoop_schemas_of_no_schema cfg vo now S pre (initState fs0) st' none hpre hnos]
    rfl
  rw [runLoop_append, hpre]
  simp only [runLoop, step_record_unknown cfg vo now st' S r hsch]

/-- C2 (witness): the one-message input RECORD for `s` fails with the
unknown-stream error and leaves the initial state untouched. -/
theorem c2_witness :
    runLoop cfgBase voAll "T" (initState []) [Message.record "s" []] =
      (initState [], some (Err.unknownStream "s")) :=
  c2_unknown_stream cfgBase voAll "T" [] [] [] "s" [] (initState []) rfl (by simp)

theorem step_record_ok (cfg : Config) (vo : ValOracle) (now : String) (st : LoopState)
    (S : String) (r : Rec) (st' : LoopState)
    (h : step cfg vo now st (Message.record S r) = Except.ok st') :
    st' = recordSuccessor cfg now st S r := by
  rcases step_ok_shape cfg vo now st _ st' h with
    ⟨S', sch, kp, hm, _⟩ | ⟨v, hm, _⟩ | ⟨hm, _⟩ | ⟨S', r', sch, hm, _, _, h2⟩
  · cases hm
  · cases hm
  · cases hm
  · injection hm with hS hr
    subst hS; subst hr
    exact h2

/-- C3 (counterexample): with no fixed headers, the header list for
stream `s` is resolved to `[a]` at the first RECORD, yet after a second
RECORD carrying an extra field `b` the cached header list has become
`[a, b]` and the written row carries both cells — the header resolved
at the stream's first RECORD is not reused unchanged. -/
theorem c3_counterexample :
    alookup (runLoop cfgBase voAll "T" (initState []) (msgsC3.take 2)).1.headers "s" =
      some ["a"] ∧
    alookup (runLoop cfgBase voAll "T" (initState []) msgsC3).1.headers "s" =
      some ["a", "b"] ∧
    alookup (runLoop cfgBase voAll "T" (initState []) msgsC3).1.fs "s-T.csv" =
      some [["a"], ["1"], ["1", "2"]] ∧
    (["a", "b"] : List String) ≠ ["a"] :=
  ⟨rfl, rfl, rfl, by decide⟩

/-- C3 (amended): for a stream with a `fixed_headers` entry the header
list is resolved at most once per run (the configured list, cached);
for any other stream the header list is re-resolved at every RECORD —
in particular a record of an already-resolved stream overwrites the
cached headers with its own field names.  Every written row consists of
exactly the fields named in the header list in effect for that row,
matched by name, extra record fields dropped. -/
theorem c3_amended (cfg : Config) (vo : ValOracle) (now : String) (st : LoopState)
    (S : String) (r : Rec) (st' : LoopState)
    (h : step cfg vo now st (Message.record S r) = Except.ok st') :
    (∀ fh hs, cfg.fixed_headers = some fh → alookup fh S = some hs →
      (alookup st.headers S = none ∨ alookup st.headers S = some hs) →
      alookup st'.headers S = some hs) ∧
    (fixedCovers cfg S = false → (alookup st.headers S).isSome = true →
      alookup st'.headers S = some (r.map Prod.fst)) ∧
    (∀ hs, alookup st'.headers S = some hs →
      (alookup st'.fs (pathOf cfg S now)).getD [] =
        (alookup st.fs (pathOf cfg S now)).getD [] ++
        (if fileIsEmptyIn st.fs (pathOf cfg S now) then [hs] else []) ++
        [projRow hs r]) := by
  have hst := step_record_ok cfg vo now st S r st' h
  subst hst
  refine ⟨?_, ?_, ?_⟩
  · intro fh hs hfh hS hinv
    have hres := resolveHeaders_fixed cfg now st S r fh hs hfh hS hinv
    simp [recordSuccessor, alookup_aset_self, hres]
  · intro hfc hsome
    rcases Option.isSome_iff_exists.mp hsome with ⟨x, hx⟩
    have hres : resolveHeaders cfg now st S r = r.map Prod.fst := by
      simp [resolveHeaders, hfc, hx]
    simp [recordSuccessor, alookup_aset_self, hres]
  · intro hs hlook
    have hres : alookup (recordSuccessor cfg now st S r).headers S =
        some (resolveHeaders cfg now st S r) := by
      simp [recordSuccessor, alookup_aset_self]
    rw [hlook] at hres
    have hhs : hs = resolveHeaders cfg now st S r := by
      injection hres
    subst hhs
    simp [recordSuccessor, alookup_aset_self]

/-- C3 (witness): a record with fields `a`, `b` arriving while the
cached header list for `s` is `[a]` re-resolves the headers to
`[a, b]`. -/
theorem c3_amended_witness :
    alookup (recordSuccessor cfgBase "T" stMid "s" [("a", "1"), ("b", "2")]).headers "s" =
      some ["a", "b"] :=
  (c3_amended cfgBase voAll "T" stMid "s" [("a", "1"), ("b", "2")]
    (recordSuccessor cfgBase "T" stMid "s" [("a", "1"), ("b", "2")]) rfl).2.1 rfl rfl

/-- C4 (counterexample): the claim says a fresh destination file always
gets a header row consisting of the record's field names.  With
`fixed_headers` mapping stream `s` to `[z]`, the first record
`{x:1, y:2}` on an empty file produces header row `z` and the row `""`
— not the record's field names `x, y`. -/
theorem c4_counterexample :
    alookup (runLoop cfgFixed voAll "T" (initState []) msgsXY).1.fs "s-T.csv" =
      some [["z"], [""]] ∧
    (some [["z"], [""]] : Option (List Row)) ≠ some [["x", "y"], ["1", "2"]] :=
  ⟨rfl, by decide⟩

/-- C4 (amended): for a stream with no `fixed_headers` entry, when the
destination file is empty or nonexistent at an append whose stream has
no cached header yet, the writer writes a header row of the record's
field names in insertion order and then the record row (two lines for
the first record); when the file is non-empty at that moment, no
header row is written, only the record row. -/
theorem c4_amended (cfg : Config) (vo : ValOracle) (now : String) (st : LoopState)
    (S : String) (r : Rec) (st' : LoopState)
    (h : step cfg vo now st (Message.record S r) = Except.ok st')
    (hfx : fixedCovers cfg S = false)
    (hfirst : alookup st.headers S = none)
    (hnd : (r.map Prod.fst).Nodup) :
    (fileIsEmptyIn st.fs (pathOf cfg S now) = true →
      alookup st'.fs (pathOf cfg S now) = some [r.map Prod.fst, r.map Prod.snd]) ∧
    (fileIsEmptyIn st.fs (pathOf cfg S now) = false →
      ∃ hs, alookup st'.headers S = some hs ∧
        alookup st'.fs (pathOf cfg S now) =
          some ((alookup st.fs (pathOf cfg S now)).getD [] ++ [projRow hs r])) := by
  have hst := step_record_ok cfg vo now st S r st' h
  subst hst
  constructor
  · intro hemp
    have hres : resolveHeaders cfg now st S r = r.map Prod.fst := by
      simp [resolveHeaders, hfx, hemp, hfirst]
    simp [recordSuccessor, alookup_aset_self, hres, hemp,
      getD_of_fileIsEmpty st.fs _ hemp, projRow_keys r hnd]
  · intro hemp
    refine ⟨resolveHeaders cfg now st S r, by simp [recordSuccessor, alookup_aset_self], ?_⟩
    simp [recordSuccessor, alookup_aset_self, hemp]

/-- C4 (witness): first record `{x:1, y:2}` of stream `s` on an absent
file yields exactly the header line `x,y` and the row `1,2`. -/
theorem c4_amended_witness :
    alookup (recordSuccessor cfgBase "T" stSchemaOnly "s" [("x", "1"), ("y", "2")]).fs
      "s-T.csv" = some [["x", "y"], ["1", "2"]] :=
  (c4_amended cfgBase voAll "T" stSchemaOnly "s" [("x", "1"), ("y", "2")]
    (recordSuccessor cfgBase "T" stSchemaOnly "s" [("x", "1"), ("y", "2")])
    rfl rfl rfl (by decide)).1 rfl

/-- C5: for a stream with a `fixed_headers` entry `hs`, over any whole
run the cached header entry is absent or exactly `hs`, and everything
appended to its destination file beyond the initial file contents is
either the header row `hs` or the `hs`-projection of some record —
regardless of the file's existing contents and of the records' own
field names or order. -/
theorem c5_fixed_headers (cfg : Config) (vo : ValOracle) (now : String) (S : String)
    (hs : List String) (fh : List (String × List String)) (msgs : List Message)
    (fs0 : FS) (st : LoopState) (e : Option Err)
    (hfh : cfg.fixed_headers = some fh) (hS : alookup fh S = some hs)
    (h : runLoop cfg vo now (initState fs0) msgs = (st, e)) :
    fixedRowsOk cfg now S hs ((alookup fs0 (pathOf cfg S now)).getD []) st :=
  runLoop_fixedRowsOk cfg vo now S hs fh hfh hS msgs fs0 st e h

/-- C5 (witness): with `fixed_headers` mapping `s` to `[z]`, after a
run writing one record the cached header list for `s` is `[z]`. -/
theorem c5_witness :
    alookup (runLoop cfgFixed voAll "T" (initState []) msgsXY).1.headers "s" = none ∨
    alookup (runLoop cfgFixed voAll "T" (initState []) msgsXY).1.headers "s" = some ["z"] :=
  (c5_fixed_headers cfgFixed voAll "T" "s" ["z"] [("s", ["z"])] msgsXY []
    (runLoop cfgFixed voAll "T" (initState []) msgsXY).1
    (runLoop cfgFixed voAll "T" (initState []) msgsXY).2 rfl rfl rfl).1

theorem takeWhile_of_any_false (pf : String → Bool) :
    ∀ l : List String, l.any pf = false →
      l.takeWhile (fun f => !pf f) = l ∧ l.dropWhile (fun f => !pf f) = [] := by
  intro l
  induction l with
  | nil => intro _; simp
  | cons f fs ih =>
    intro h
    simp only [List.any_cons, Bool.or_eq_false_iff] at h
    obtain ⟨ht, hd⟩ := ih h.2
    simp [List.takeWhile_cons, List.dropWhile_cons, h.1, ht, hd]

/-- C6 (counterexample): the claim requires all six options including
`sftp_port`; but with the five options of line 114 set and `sftp_port`
absent, the dispatcher still runs (a transfer session is opened). -/
theorem c6_counterexample :
    cfgNoPort.sftp_port = none ∧
    (persist_messages cfgNoPort voAll troOk "T" [] []).transfer.isSome = true :=
  ⟨rfl, rfl⟩

/-- C6 (amended): the dispatcher runs only when the five options
`sftp_host`, `sftp_username`, `sftp_password`, `sftp_public_key`,
`sftp_public_key_format` are all truthy; if any one of them is absent
the dispatcher is skipped entirely; `sftp_port` is not required. -/
theorem c6_amended (cfg : Config) (vo : ValOracle) (tro : TransferOracle) (now : String)
    (msgs : List Message) (fs0 : FS) :
    ((cfg.sftp_host = none ∨ cfg.sftp_username = none ∨ cfg.sftp_password = none ∨
      cfg.sftp_public_key = none ∨ cfg.sftp_public_key_format = none) →
      (persist_messages cfg vo tro now msgs fs0).transfer = none) ∧
    (truthy cfg.sftp_host = true → truthy cfg.sftp_username = true →
      truthy cfg.sftp_password = true → truthy cfg.sftp_public_key = true →
      truthy cfg.sftp_public_key_format = true →
      (runLoop cfg vo now (initState fs0) msgs).2 = none →
      (persist_messages cfg vo tro now msgs fs0).transfer.isSome = true) := by
  constructor
  · intro hc
    refine persist_transfer_none cfg vo tro now msgs fs0 ?_
    rcases hc with h | h | h | h | h <;> simp [transferEnabled, h, truthy]
  · intro h1 h2 h3 h4 h5 hl
    exact persist_transfer_isSome cfg vo tro now msgs fs0
      (by simp [transferEnabled, h1, h2, h3, h4, h5]) hl

/-- C6 (witness): with no transfer option configured the dispatcher is
skipped. -/
theorem c6_amended_witness :
    (persist_messages cfgBase voAll troOk "T" [] []).transfer = none :=
  (c6_amended cfgBase voAll troOk "T" [] []).1 (Or.inl rfl)

/-- C7 (code bug): with `destination_path = "out"`, the run writes the
stream's file at `out/s-T.csv`, but the manifest stores the filename
captured at line 70 before the join of line 71, so the dispatcher calls
`sftp.put` on the bare relative path `s-T.csv` — a local path at which
this run created no file — instead of the file it actually produced. -/
theorem c7_code_bug :
    joinPath "out" (fname "s" "T") = "out/s-T.csv" ∧
    (alookup (persist_messages cfgOut voAll troOk "T" msgsC7 []).loopState.fs
      "out/s-T.csv").isSome = true ∧
    alookup (persist_messages cfgOut voAll troOk "T" msgsC7 []).loopState.fs
      "s-T.csv" = none ∧
    (persist_messages cfgOut voAll troOk "T" msgsC7 []).transfer.map
      (fun t => t.attemptedPuts) = some ["s-T.csv"] :=
  ⟨rfl, rfl, rfl, rfl⟩

/-- C8: the SFTP block closes every session resource it opened on both
the success and the failure path, attempts no further copy after the
first failure, and propagates any connect/open/copy failure as the
fatal transfer error of the run. -/
theorem c8_transfer_cleanup (tro : TransferOracle) (files : List String) (cfg : Config)
    (vo : ValOracle) (now : String) (msgs : List Message) (fs0 : FS) :
    ((runTransfer tro files).sftpOpened = true →
      (runTransfer tro files).sftpClosed = true) ∧
    ((runTransfer tro files).clientOpened = true →
      (runTransfer tro files).clientClosed = true) ∧
    ((runTransfer tro files).failed = false →
      (runTransfer tro files).attemptedPuts = files ∧
      (runTransfer tro files).sftpClosed = true ∧
      (runTransfer tro files).clientClosed = true) ∧
    ((runTransfer tro files).failed =
      (tro.connectFails || tro.openSftpFails || files.any tro.putFails)) ∧
    (tro.connectFails = false → tro.openSftpFails = false →
      (runTransfer tro files).attemptedPuts =
        files.takeWhile (fun f => !tro.putFails f) ++
        (files.dropWhile (fun f => !tro.putFails f)).take 1) ∧
    ((persist_messages cfg vo tro now msgs fs0).transfer.map (fun t => t.failed) =
        some true →
      (persist_messages cfg vo tro now msgs fs0).err = some Err.transferError) := by
  refine ⟨?_, ?_, ?_, ?_, ?_, ?_⟩
  · cases hc : tro.connectFails <;> cases ho : tro.openSftpFails <;>
      simp [runTransfer, hc, ho]
  · cases hc : tro.connectFails <;> cases ho : tro.openSftpFails <;>
      simp [runTransfer, hc, ho]
  · intro hf
    cases hc : tro.connectFails with
    | true => simp [runTransfer, hc] at hf
    | false =>
      cases ho : tro.openSftpFails with
      | true => simp [runTransfer, hc, ho] at hf
      | false =>
        simp only [runTransfer, hc, ho, Bool.false_eq_true, if_false,
          attemptPuts_eq] at hf ⊢
        obtain ⟨ht, hd⟩ := takeWhile_of_any_false tro.putFails files hf
        simp [ht, hd]
  · cases hc : tro.connectFails <;> cases ho : tro.openSftpFails <;>
      simp [runTransfer, hc, ho, attemptPuts_eq]
  · intro hc ho
    simp [runTransfer, hc, ho, attemptPuts_eq]
  · intro hmap
    rcases hrun : runLoop cfg vo now (initState fs0) msgs with ⟨st, e⟩
    cases e with
    | some e' => simp [persist_messages, hrun] at hmap
    | none =>
      cases hen : transferEnabled cfg with
      | false => simp [persist_messages, hrun, hen] at hmap
      | true =>
        cases hfl : (runTransfer tro (st.stream_2_filenames.map Prod.snd)).failed with
        | false => simp [persist_messages, hrun, hen, hfl] at hmap
        | true => simp [persist_messages, hrun, hen, hfl]

/-- C8 (witness): with the put of `b` failing, files `a` and `b` are
attempted and `c` is not. -/
theorem c8_witness :
    (runTransfer troFailB ["a", "b", "c"]).attemptedPuts = ["a", "b"] :=
  (c8_transfer_cleanup troFailB ["a", "b", "c"] cfgBase voAll "T" [] []).2.2.2.2.1 rfl rfl

/-- C9: after a run that completes without error, a stream is in the
transfer manifest iff some RECORD for it was processed; any manifest
entry is the single run filename of line 69; a stream with no RECORD
keeps its destination file untouched; and a stream absent from the
manifest is never transferred. -/
theorem c9_manifest (cfg : Config) (vo : ValOracle) (tro : TransferOracle)
    (now : String) (msgs : List Message) (fs0 : FS) (S : String) (st : LoopState)
    (h : runLoop cfg vo now (initState fs0) msgs = (st, none)) :
    ((alookup st.stream_2_filenames S).isSome = true ↔
      ∃ r, Message.record S r ∈ msgs) ∧
    (∀ f, alookup st.stream_2_filenames S = some f → f = fname S now) ∧
    ((∀ r, Message.record S r ∉ msgs) →
      alookup st.fs (pathOf cfg S now) = alookup fs0 (pathOf cfg S now)) ∧
    (alookup st.stream_2_filenames S = none →
      fname S now ∉ (runTransfer tro (st.stream_2_filenames.map Prod.snd)).attemptedPuts) := by
  have hman : manifestOk now st :=
    runLoop_manifestOk cfg vo now msgs (initState fs0) st none h
      (by intro k v hv; simp [initState] at hv)
  refine ⟨?_, ?_, ?_, ?_⟩
  · have hiff := runLoop_s2f_iff cfg vo now S msgs (initState fs0) st h
    simpa [initState, alookup] using hiff
  · intro f hf
    exact hman S f (alookup_mem _ _ _ hf)
  · intro hno
    have h2 := runLoop_fs_preserved cfg vo now S msgs (initState fs0) st none h hno
    simpa [initState] using h2
  · intro hnone hmem
    have hval : fname S now ∈ st.stream_2_filenames.map Prod.snd := by
      cases hc : tro.connectFails with
      | true => simp [runTransfer, hc] at hmem
      | false =>
        cases ho : tro.openSftpFails with
        | true => simp [runTransfer, hc, ho] at hmem
        | false =>
          simp only [runTransfer, hc, ho, Bool.false_eq_true, if_false] at hmem
          exact attemptPuts_mem tro.putFails _ _ hmem
    rcases exists_mem_of_mem_values _ _ hval with ⟨k, hk⟩
    have hkS : k = S := fname_inj (hman k _ hk).symm
    subst hkS
    have hsome := alookup_isSome_of_mem _ _ _ hk
    rw [hnone] at hsome
    simp at hsome

/-- C9 (witness): after the run writing one record for `s`, the
manifest maps `s` to exactly the run filename. -/
theorem c9_witness : ("s-T.csv" : String) = fname "s" "T" :=
  (c9_manifest cfgBase voAll troOk "T" msgsC7 [] "s"
    (runLoop cfgBase voAll "T" (initState []) msgsC7).1 rfl).2.1 "s-T.csv" rfl

/-- C10: the transfer-enabling check of line 114 tests truthiness, not
presence — configuring any of the five consulted options as the empty
string makes the whole run behave exactly as if the option were absent
— and `sftp_port` is never consulted: the entire run result is
invariant under any change of `sftp_port`. -/
theorem c10_truthiness_and_port (cfg : Config) (vo : ValOracle) (tro : TransferOracle)
    (now : String) (msgs : List Message) (fs0 : FS) (p q : Option String) :
    (persist_messages { cfg with sftp_host := some "" } vo tro now msgs fs0 =
      persist_messages { cfg with sftp_host := none } vo tro now msgs fs0) ∧
    (persist_messages { cfg with sftp_username := some "" } vo tro now msgs fs0 =
      persist_messages { cfg with sftp_username := none } vo tro now msgs fs0) ∧
    (persist_messages { cfg with sftp_password := some "" } vo tro now msgs fs0 =
      persist_messages { cfg with sftp_password := none } vo tro now msgs fs0) ∧
    (persist_messages { cfg with sftp_public_key := some "" } vo tro now msgs fs0 =
      persist_messages { cfg with sftp_public_key := none } vo tro now msgs fs0) ∧
    (persist_messages { cfg with sftp_public_key_format := some "" } vo tro now msgs fs0 =
      persist_messages { cfg with sftp_public_key_format := none } vo tro now msgs fs0) ∧
    (persist_messages { cfg with sftp_port := p } vo tro now msgs fs0 =
      persist_messages { cfg with sftp_port := q } vo tro now msgs fs0) := by
  refine ⟨?_, ?_, ?_, ?_, ?_, ?_⟩
  · exact persist_cfg_congr { cfg with sftp_host := some "" }
      { cfg with sftp_host := none } rfl rfl rfl vo tro now msgs fs0
  · exact persist_cfg_congr { cfg with sftp_username := some "" }
      { cfg with sftp_username := none } rfl rfl rfl vo tro now msgs fs0
  · exact persist_cfg_congr { cfg with sftp_password := some "" }
      { cfg with sftp_password := none } rfl rfl rfl vo tro now msgs fs0
  · exact persist_cfg_congr { cfg with sftp_public_key := some "" }
      { cfg with sftp_public_key := none } rfl rfl rfl vo tro now msgs fs0
  · exact persist_cfg_congr { cfg with sftp_public_key_format := some "" }
      { cfg with sftp_public_key_format := none } rfl rfl rfl vo tro now msgs fs0
  · exact persist_cfg_congr { cfg with sftp_port := p }
      { cfg with sftp_port := q } rfl rfl rfl vo tro now msgs fs0
